import Mathlib

/-!
Verification of the conversion layer of the CEL conformance server
(`server/server.go`): the value adapter between the wire `ExprValue`
representation and the host `ref.Val` representation, the error-to-status
translator, and the thin Parse/Eval request handlers.  The external engine
(parser, program builder, evaluator) is not part of the repository; handlers
are therefore parameterised over it, and the two engine-side value conversion
functions are modelled from the specification.
-/

namespace ConformanceServer

/-- Status codes from `google.golang.org/grpc/codes` used by the server. -/
inductive Code where
  | ok
  | invalidArgument
  | unknown
  deriving DecidableEq

/-- Severity levels of `confpb.IssueDetails_Severity`. -/
inductive Severity where
  | unspecified
  | deprecation
  | warning
  | error
  deriving DecidableEq

/-- Fields of `exprpb.SourcePosition` populated by the server (int32 values). -/
structure SourcePosition where
  line : Int
  column : Int
  deriving DecidableEq

/-- Fields of `confpb.IssueDetails`: a severity plus a source position. -/
structure IssueDetails where
  severity : Severity
  position : SourcePosition
  deriving DecidableEq

/-- The `rpcpb.Status` proto: code, message and attached details.  The server
only ever attaches `IssueDetails`, so details are carried directly. -/
structure RpcStatus where
  code : Code
  message : String
  details : List IssueDetails
  deriving DecidableEq

/-- The `common.Location` of a diagnostic, with `Line()` and `Column()`
returning Go `int` values. -/
structure Location where
  line : Int
  column : Int
  deriving DecidableEq

/-- A `common.Error` diagnostic: a source location and a message. -/
structure CommonError where
  location : Location
  message : String
  deriving DecidableEq

/-- Go conversion to `int32`: wraparound into the interval [-2^31, 2^31). -/
def toInt32 (n : Int) : Int := (n + 2 ^ 31) % 2 ^ 32 - 2 ^ 31

/-- The gRPC `Status.WithDetails` operation: it fails exactly when the status
code is `OK` (proto marshalling of a well-formed `IssueDetails` message always
succeeds); on success the detail is appended to the status. -/
def withDetails (s : RpcStatus) (d : IssueDetails) : Option RpcStatus :=
  if s.code = .ok then none else some { s with details := s.details ++ [d] }

/-- The body of `ErrToStatus`, parameterised over the detail-attachment
capability so that the best-effort contract (attach the detail when possible,
otherwise return the plain status unchanged) is explicit in the definition. -/
def errToStatusWith (attach : RpcStatus → IssueDetails → Option RpcStatus)
    (e : CommonError) (severity : Severity) : RpcStatus :=
  let detail : IssueDetails :=
    { severity := severity
      position := { line := toInt32 e.location.line, column := toInt32 e.location.column } }
  let s : RpcStatus := { code := .invalidArgument, message := e.message, details := [] }
  match attach s detail with
  | some sd => sd
  | none => s

/-- The `ErrToStatus` function as in the source: detail attachment is performed
by gRPC `WithDetails`. -/
def errToStatus (e : CommonError) (severity : Severity) : RpcStatus :=
  errToStatusWith withDetails e severity

/-- The `appendErrors` function: converts each diagnostic to a status message
with severity `ERROR` and appends it to the issue list. -/
def appendErrors (errs : List CommonError) (issues : List RpcStatus) : List RpcStatus :=
  match errs with
  | [] => issues
  | e :: rest => appendErrors rest (issues ++ [errToStatus e .error])

/-- The scalar success-value kinds of `exprpb.Value` exercised by this layer.
Doubles are carried as their 64-bit pattern: the adapter copies them verbatim
and never computes with them.  Composite kinds (list, map, enum, message,
type) are outside the scope of the claims verified here and their conversion
is independent of the scalar paths below. -/
inductive Value where
  | nullValue
  | boolValue (b : Bool)
  | int64Value (i : Int)
  | uint64Value (u : Nat)
  | doubleValue (bits : Nat)
  | stringValue (s : String)
  | bytesValue (bs : List Nat)
  deriving DecidableEq

/-- The `exprpb.ExprValue` proto: a `oneof` over a success value, an error set
and an unknown set; `noKind` is the unset oneof, where no tag is populated. -/
inductive ExprValue where
  | value (v : Value)
  | errorSet (errs : List RpcStatus)
  | unknownSet (exprs : List Int)
  | noKind
  deriving DecidableEq

/-- The host `ref.Val` kinds exercised by this layer: the representable
scalars, the distinguished error value (`types.Err`, carrying a message) and
the distinguished unknown value (`types.Unknown`, carrying int64 expression
identifiers). -/
inductive HostValue where
  | nullV
  | boolV (b : Bool)
  | intV (i : Int)
  | uintV (u : Nat)
  | doubleV (bits : Nat)
  | stringV (s : String)
  | bytesV (bs : List Nat)
  | errV (msg : String)
  | unknownV (ids : List Int)
  deriving DecidableEq

/-- The representable scalar host kinds. -/
def HostValue.isScalar : HostValue → Bool
  | .nullV | .boolV _ | .intV _ | .uintV _ | .doubleV _ | .stringV _ | .bytesV _ => true
  | .errV _ | .unknownV _ => false

/-- A Go `error` as observed by this layer: either a plain error carrying only
a message (the shape of evaluation errors from `prg.Eval`), or a gRPC status
error carrying a code and a message. -/
inductive GoErr where
  | plainE (msg : String)
  | statusE (code : Code) (msg : String)
  deriving DecidableEq

/-- String rendering of a gRPC code, as by `codes.Code.String()`. -/
def codeName : Code → String
  | .ok => "OK"
  | .invalidArgument => "InvalidArgument"
  | .unknown => "Unknown"

/-- The `Error()` text of a Go error: a status error renders with its code. -/
def GoErr.text : GoErr → String
  | .plainE msg => msg
  | .statusE code msg => "rpc error: code = " ++ codeName code ++ " desc = " ++ msg

/-- The `status.Convert(err).Proto()` step for a non-nil error: a status error
keeps its code and message; a plain error is wrapped by `status.FromError`
with code `Unknown` and the error text as message.  No details are attached. -/
def statusConvert : GoErr → RpcStatus
  | .plainE msg => ⟨.unknown, msg, []⟩
  | .statusE code msg => ⟨code, msg, []⟩

/-- Modelled from the spec: `cel.RefValueToValue` (engine code, not under the
server sources) — "primitive scalar → matching scalar wire tag, value copied
verbatim (no lossy numeric narrowing)".  The error and unknown host variants
have no success-value representation, so converting them fails. -/
def refValueToValue : HostValue → Except String Value
  | .nullV => .ok .nullValue
  | .boolV b => .ok (.boolValue b)
  | .intV i => .ok (.int64Value i)
  | .uintV u => .ok (.uint64Value u)
  | .doubleV bits => .ok (.doubleValue bits)
  | .stringV s => .ok (.stringValue s)
  | .bytesV bs => .ok (.bytesValue bs)
  | .errV _ => .error "unsupported type conversion"
  | .unknownV _ => .error "unsupported type conversion"

/-- The `RefValueToExprValue` function: a non-nil evaluation error becomes a
one-record error set (ignoring the host value); an unknown host value becomes
an unknown set carrying its identifiers; any other value is converted via
`refValueToValue`. -/
def refValueToExprValue (res : HostValue) (err : Option GoErr) : Except String ExprValue :=
  match err with
  | some e => .ok (.errorSet [statusConvert e])
  | none =>
    match res with
    | .unknownV ids => .ok (.unknownSet ids)
    | _ =>
      match refValueToValue res with
      | .error m => .error m
      | .ok v => .ok (.value v)

/-- The `ref.TypeAdapter` capability: consulted only for type-directed
construction of composite values; scalar conversion does not use it. -/
abbrev TypeAdapter := Unit

/-- Modelled from the spec: `cel.ValueToRefValue` (engine code, not under the
server sources) — "success-value tag → recursively convert to the
corresponding host value ...; leaf scalars convert directly". -/
def valueToRefValue (_adapter : TypeAdapter) : Value → Except GoErr HostValue
  | .nullValue => .ok .nullV
  | .boolValue b => .ok (.boolV b)
  | .int64Value i => .ok (.intV i)
  | .uint64Value u => .ok (.uintV u)
  | .doubleValue bits => .ok (.doubleV bits)
  | .stringValue s => .ok (.stringV s)
  | .bytesValue bs => .ok (.bytesV bs)

/-- The `ExprValueToRefValue` function: dispatch on the populated tag; an
error set becomes the placeholder host error, an unknown set becomes the
unknown host value, and an unset tag fails with `InvalidArgument`. -/
def exprValueToRefValue (adapter : TypeAdapter) (ev : ExprValue) : Except GoErr HostValue :=
  match ev with
  | .value v => valueToRefValue adapter v
  | .errorSet _ => .ok (.errV "XXX add details later")
  | .unknownSet ids => .ok (.unknownV ids)
  | .noKind => .error (.statusE .invalidArgument "unknown ExprValue kind")

/-- An external parsed-expression artifact; its content is irrelevant to the
handler logic verified here. -/
structure ParsedExpr where
  uid : Nat
  deriving DecidableEq

/-- An external checked-expression artifact. -/
structure CheckedExpr where
  uid : Nat
  deriving DecidableEq

/-- The fields of `confpb.ParseRequest` read by the handler, plus the unused
syntax-version field. -/
structure ParseRequest where
  celSource : String
  syntaxVersion : String
  disableMacros : Bool
  deriving DecidableEq

/-- The `confpb.ParseResponse` proto: a parsed artifact or a list of issues. -/
structure ParseResponse where
  parsedExpr : Option ParsedExpr
  issues : List RpcStatus
  deriving DecidableEq

/-- A gRPC status error returned at transport level, built by
`status.New(code, message).Err()`. -/
structure StatusErr where
  code : Code
  message : String
  deriving DecidableEq

/-- The outcome of the external parser `env.Parse`: a parsed artifact when
`iss` is nil or carries no error, otherwise the diagnostic list
`iss.Errors()`. -/
inductive ParseOutcome where
  | success (ast : ParsedExpr)
  | failure (errs : List CommonError)
  deriving DecidableEq

/-- The external parsing engine as a function of the macro flag and the
source text (`cel.NewEnv`, with `ClearMacros` when macros are disabled,
followed by `env.Parse`). -/
abbrev ParserFn := Bool → String → ParseOutcome

/-- The `Parse` handler: rejects empty source with `InvalidArgument`,
otherwise runs the external parsing engine and returns either the parsed
artifact or the translated diagnostics.  The syntax-version field is never
read. -/
def parseHandler (engine : ParserFn) (req : ParseRequest) : Except StatusErr ParseResponse :=
  if req.celSource = "" then
    .error ⟨.invalidArgument, "No source code."⟩
  else
    match engine req.disableMacros req.celSource with
    | .success ast => .ok { parsedExpr := some ast, issues := [] }
    | .failure errs => .ok { parsedExpr := none, issues := appendErrors errs [] }

/-- The `expr_kind` oneof of `confpb.EvalRequest`. -/
inductive EvalExprKind where
  | parsedE (p : ParsedExpr)
  | checkedE (c : CheckedExpr)
  | noExpr
  deriving DecidableEq

/-- The fields of `confpb.EvalRequest` read by the handler; the bindings map
is carried as an association list. -/
structure EvalRequest where
  container : String
  exprKind : EvalExprKind
  bindings : List (String × ExprValue)
  deriving DecidableEq

/-- The `confpb.EvalResponse` proto: exactly one result wire value. -/
structure EvalResponse where
  result : ExprValue
  deriving DecidableEq

/-- A transport-level failure from `Eval`: either a gRPC status error or a
plain error built with `fmt.Errorf`. -/
inductive TransportErr where
  | statusErr (s : StatusErr)
  | plainErr (msg : String)
  deriving DecidableEq

/-- The AST handed to `env.Program`, built by `ParsedExprToAst` or
`CheckedExprToAst` from whichever artifact the request carries. -/
inductive Ast where
  | fromParsed (p : ParsedExpr)
  | fromChecked (c : CheckedExpr)
  deriving DecidableEq

/-- An external compiled program handle, as produced by `env.Program`. -/
structure Program where
  uid : Nat
  deriving DecidableEq

/-- The binding-conversion loop of `Eval`: converts each bound wire value to a
host value, failing on the first binding that does not convert. -/
def convertBindings (adapter : TypeAdapter) :
    List (String × ExprValue) → Except String (List (String × HostValue))
  | [] => .ok []
  | (name, ev) :: rest =>
    match exprValueToRefValue adapter ev with
    | .error e => .error ("can't convert binding " ++ name ++ ": " ++ e.text)
    | .ok rv =>
      match convertBindings adapter rest with
      | .error m => .error m
      | .ok args => .ok ((name, rv) :: args)

/-- The artifact dispatch of `Eval`: builds the program from the parsed or
checked artifact, failing with `InvalidArgument` when neither is present and
propagating a program-construction failure. -/
def getProgram (programFn : Ast → Except String Program) :
    EvalExprKind → Except TransportErr Program
  | .parsedE p =>
    match programFn (.fromParsed p) with
    | .error m => .error (.plainErr m)
    | .ok prg => .ok prg
  | .checkedE c =>
    match programFn (.fromChecked c) with
    | .error m => .error (.plainErr m)
    | .ok prg => .ok prg
  | .noExpr => .error (.statusErr ⟨.invalidArgument, "No expression."⟩)

/-- The `Eval` handler, parameterised over the external program builder and
evaluator: builds the program, converts the bindings, evaluates (the result is
a host value together with an optional evaluation error), and converts the
outcome into exactly one wire value via `refValueToExprValue`. -/
def evalHandler (programFn : Ast → Except String Program)
    (runFn : Program → List (String × HostValue) → HostValue × Option GoErr)
    (req : EvalRequest) : Except TransportErr EvalResponse :=
  match getProgram programFn req.exprKind with
  | .error e => .error e
  | .ok prg =>
    match convertBindings () req.bindings with
    | .error m => .error (.plainErr m)
    | .ok args =>
      match runFn prg args with
      | (res, errOpt) =>
        match refValueToExprValue res errOpt with
        | .error m => .error (.plainErr ("con't convert result: " ++ m))
        | .ok ev => .ok { result := ev }

theorem toInt32_eq_self (n : Int) (h₁ : -2 ^ 31 ≤ n) (h₂ : n < 2 ^ 31) : toInt32 n = n := by
  unfold toInt32
  have h3 : (0 : Int) ≤ n + 2 ^ 31 := by linarith
  have h4 : n + 2 ^ 31 < 2 ^ 32 := by
    have : (2 : Int) ^ 32 = 2 ^ 31 + 2 ^ 31 := by norm_num
    linarith
  rw [Int.emod_eq_of_lt h3 h4]
  ring

/-- C1 (counterexample): converting the plain evaluation error "whoops" yields
a one-record error set whose code is `Unknown`, not the claimed
`InvalidArgument`: gRPC `status.Convert` wraps a plain error with code
`Unknown`. -/
theorem refValueToExprValue_plain_error_code_is_unknown :
    refValueToExprValue HostValue.nullV (some (GoErr.plainE "whoops")) =
      .ok (.errorSet [⟨Code.unknown, "whoops", []⟩]) ∧
    Code.unknown ≠ Code.invalidArgument :=
  ⟨rfl, by decide⟩

/-- C1 (amended): for every host value and every plain (non-status) evaluation
error, the host value is ignored and the result is an error-set wire value
with exactly one status record, whose code is `Unknown` (the status conversion
of a plain error), whose message is the error text, and which carries no
structured detail. -/
theorem refValueToExprValue_error_spec (res : HostValue) (msg : String) :
    refValueToExprValue res (some (GoErr.plainE msg)) =
      .ok (.errorSet [⟨Code.unknown, msg, []⟩]) :=
  rfl

/-- C2: every error-set wire value, regardless of its records, converts to the
distinguished host error with message exactly "XXX add details later". -/
theorem exprValueToRefValue_errorSet (adapter : TypeAdapter) (errs : List RpcStatus) :
    exprValueToRefValue adapter (.errorSet errs) = .ok (.errV "XXX add details later") :=
  rfl

/-- C3: for every scalar host value, converting to a wire value with no error
and converting back yields the original value. -/
theorem scalar_round_trip (adapter : TypeAdapter) (v : HostValue) (h : v.isScalar = true) :
    ∃ w, refValueToExprValue v none = .ok w ∧ exprValueToRefValue adapter w = .ok v := by
  cases v with
  | nullV => exact ⟨_, rfl, rfl⟩
  | boolV b => exact ⟨_, rfl, rfl⟩
  | intV i => exact ⟨_, rfl, rfl⟩
  | uintV u => exact ⟨_, rfl, rfl⟩
  | doubleV bits => exact ⟨_, rfl, rfl⟩
  | stringV s => exact ⟨_, rfl, rfl⟩
  | bytesV bs => exact ⟨_, rfl, rfl⟩
  | errV m => simp [HostValue.isScalar] at h
  | unknownV ids => simp [HostValue.isScalar] at h

/-- C3 witness: the round trip at the concrete scalar 7. -/
theorem scalar_round_trip_witness :
    (HostValue.intV 7).isScalar = true ∧
    ∃ w, refValueToExprValue (HostValue.intV 7) none = .ok w ∧
      exprValueToRefValue () w = .ok (HostValue.intV 7) :=
  ⟨rfl, scalar_round_trip () (HostValue.intV 7) rfl⟩

/-- C4: the distinguished unknown host value maps, with nil error, to an
unknown-set wire value with the identifier list preserved verbatim; in
particular [1, 3, 5] maps to [1, 3, 5]. -/
theorem refValueToExprValue_unknown (ids : List Int) :
    refValueToExprValue (.unknownV ids) none = .ok (.unknownSet ids) ∧
    refValueToExprValue (.unknownV [1, 3, 5]) none = .ok (.unknownSet [1, 3, 5]) :=
  ⟨rfl, rfl⟩

/-- C5: a wire value with no populated tag fails with an `InvalidArgument`
status error with message "unknown ExprValue kind", returning no host value. -/
theorem exprValueToRefValue_noKind (adapter : TypeAdapter) :
    exprValueToRefValue adapter .noKind =
      .error (.statusE .invalidArgument "unknown ExprValue kind") :=
  rfl

/-- C6: for a diagnostic with int32-representable position, `ErrToStatus`
returns a status with code `InvalidArgument`, the diagnostic message verbatim,
and the structured detail {severity, line, column} attached (gRPC
`WithDetails` supports attaching to a non-OK status); moreover, for an
arbitrary attachment capability, the result is the attached status when
attachment succeeds and the plain status (code and message only) when it
fails — the operation is total either way. -/
theorem errToStatus_spec (attach : RpcStatus → IssueDetails → Option RpcStatus)
    (e : CommonError) (sev : Severity)
    (hl₁ : -2 ^ 31 ≤ e.location.line) (hl₂ : e.location.line < 2 ^ 31)
    (hc₁ : -2 ^ 31 ≤ e.location.column) (hc₂ : e.location.column < 2 ^ 31) :
    errToStatus e sev =
      ⟨.invalidArgument, e.message, [⟨sev, ⟨e.location.line, e.location.column⟩⟩]⟩ ∧
    ((∃ sd, attach ⟨.invalidArgument, e.message, []⟩
          ⟨sev, ⟨toInt32 e.location.line, toInt32 e.location.column⟩⟩ = some sd ∧
        errToStatusWith attach e sev = sd) ∨
      (attach ⟨.invalidArgument, e.message, []⟩
          ⟨sev, ⟨toInt32 e.location.line, toInt32 e.location.column⟩⟩ = none ∧
        errToStatusWith attach e sev = ⟨.invalidArgument, e.message, []⟩)) := by
  constructor
  · simp [errToStatus, errToStatusWith, withDetails,
      toInt32_eq_self e.location.line hl₁ hl₂, toInt32_eq_self e.location.column hc₁ hc₂]
  · rcases hat : attach ⟨.invalidArgument, e.message, []⟩
        ⟨sev, ⟨toInt32 e.location.line, toInt32 e.location.column⟩⟩ with _ | sd
    · exact Or.inr ⟨rfl, by simp [errToStatusWith, hat]⟩
    · exact Or.inl ⟨sd, rfl, by simp [errToStatusWith, hat]⟩

/-- C6 witness: the diagnostic "unexpected token" at line 3, column 5. -/
theorem errToStatus_spec_witness :
    errToStatus ⟨⟨3, 5⟩, "unexpected token"⟩ Severity.error =
      ⟨Code.invalidArgument, "unexpected token", [⟨Severity.error, ⟨3, 5⟩⟩]⟩ :=
  (errToStatus_spec withDetails ⟨⟨3, 5⟩, "unexpected token"⟩ Severity.error
    (by decide) (by decide) (by decide) (by decide)).1

/-- C7: `appendErrors` appends to the issue list exactly one status record per
diagnostic, in the order of the input sequence. -/
theorem appendErrors_spec (errs : List CommonError) (issues : List RpcStatus) :
    appendErrors errs issues = issues ++ errs.map (fun e => errToStatus e .error) := by
  induction errs generalizing issues with
  | nil => simp [appendErrors]
  | cons e rest ih => simp [appendErrors, ih]

/-- C8: a Parse request with empty source text fails with an `InvalidArgument`
transport error with message "No source code.", for every parsing engine — in
particular no parse is attempted. -/
theorem parse_empty_source (engine : ParserFn) (req : ParseRequest)
    (h : req.celSource = "") :
    parseHandler engine req = .error ⟨.invalidArgument, "No source code."⟩ := by
  simp [parseHandler, h]

/-- C8 witness: the empty-source request. -/
theorem parse_empty_source_witness :
    parseHandler (fun _ _ => .failure []) ⟨"", "1.0", false⟩ =
      .error ⟨.invalidArgument, "No source code."⟩ :=
  parse_empty_source (fun _ _ => .failure []) ⟨"", "1.0", false⟩ rfl

/-- C9: when the request carries an artifact from which a program is built and
all bindings convert, an evaluation error does not cause a transport failure:
`Eval` returns a successful response whose single result is an error-set wire
value derived from the evaluation error. -/
theorem eval_error_not_transport_failure
    (programFn : Ast → Except String Program)
    (runFn : Program → List (String × HostValue) → HostValue × Option GoErr)
    (req : EvalRequest) (prg : Program) (args : List (String × HostValue))
    (res : HostValue) (e : GoErr)
    (hprg : getProgram programFn req.exprKind = .ok prg)
    (hbind : convertBindings () req.bindings = .ok args)
    (hrun : runFn prg args = (res, some e)) :
    evalHandler programFn runFn req = .ok ⟨.errorSet [statusConvert e]⟩ := by
  simp [evalHandler, hprg, hbind, hrun, refValueToExprValue]

/-- C9 witness: a parsed artifact, no bindings, and the evaluation error
"division by zero". -/
theorem eval_error_not_transport_failure_witness :
    evalHandler (fun _ => .ok ⟨0⟩)
        (fun _ _ => (HostValue.nullV, some (GoErr.plainE "division by zero")))
        ⟨"", .parsedE ⟨1⟩, []⟩ =
      .ok ⟨.errorSet [⟨Code.unknown, "division by zero", []⟩]⟩ :=
  eval_error_not_transport_failure (fun _ => .ok ⟨0⟩)
    (fun _ _ => (HostValue.nullV, some (GoErr.plainE "division by zero")))
    ⟨"", .parsedE ⟨1⟩, []⟩ ⟨0⟩ [] HostValue.nullV (GoErr.plainE "division by zero")
    rfl rfl rfl

/-- C10: the Parse handler never reads the syntax-version field: two requests
equal except for that field receive identical responses, for every parsing
engine. -/
theorem parse_syntax_version_independent (engine : ParserFn) (r₁ r₂ : ParseRequest)
    (hsrc : r₁.celSource = r₂.celSource) (hmac : r₁.disableMacros = r₂.disableMacros) :
    parseHandler engine r₁ = parseHandler engine r₂ := by
  simp [parseHandler, hsrc, hmac]

/-- C10 witness: two requests differing only in the syntax-version field. -/
theorem parse_syntax_version_independent_witness :
    parseHandler (fun _ _ => .failure []) ⟨"1 + 1", "a", false⟩ =
      parseHandler (fun _ _ => .failure []) ⟨"1 + 1", "b", false⟩ :=
  parse_syntax_version_independent (fun _ _ => .failure [])
    ⟨"1 + 1", "a", false⟩ ⟨"1 + 1", "b", false⟩ rfl rfl

end ConformanceServer
